import Mathlib

/-!
Verification of the A/B WAV playback tool (src/ab_play.py).

Shallow embedding conventions:
* Python ints are modelled as `Int` (arbitrary precision, can go negative).
* float32 samples are modelled as `ℚ` (the arithmetic the claims are about
  is exact scaling and zero tests).
* A frame is one `List ℚ` of per-channel samples; a buffer is a `List` of
  frames (the rows of the numpy 2-D array after the mono reshape).
* `sys.exit(1)` paths in `load_wavs` are modelled as `Except.error`;
  returning normally is `Except.ok`.  A missing input file is `Option.none`.
* The `threading.Lock` field of `PlaybackState` makes every callback body
  and every key-handler body one atomic critical section; concurrency is
  modelled as interleavings of these atomic steps (`Op`, `runTrace`).
-/

set_option autoImplicit false

namespace ABPlay

/-- One audio frame: the per-channel samples at one time index. -/
abbrev Frame : Type := List ℚ

/-- A sample buffer: a list of frames (rows of the 2-D numpy array). -/
abbrev Buffer : Type := List Frame

/-- An all-zero frame with the given channel count (`outdata.fill(0)` and
`outdata[length:] = 0` write these). -/
def zeroFrame (channels : Nat) : Frame :=
  List.replicate channels 0

/-- `PlaybackState` from src/ab_play.py lines 28-38.  The `lock` field is not
data; it only serialises access and is represented by the atomic-step
semantics (`runTrace`). -/
structure PlaybackState where
  active : Int := 0
  paused : Bool := true
  pos : Int := 0
  quit : Bool := false
  deriving Repr, DecidableEq

/-- The freshly constructed state (`PlaybackState()` in `main`). -/
def initState : PlaybackState := {}

/-- `buffers[i]` for the two-element list `buffers = [audio_a, audio_b]`,
at the indices `0` and `1` that `active` actually takes. -/
def getBuf (bufs : Buffer × Buffer) (i : Int) : Buffer :=
  if i = 0 then bufs.1 else bufs.2

/-- `np.ndarray.max()` over a flat list of samples: the maximum of the
elements, and `none` on a zero-size array, where numpy raises
`ValueError: zero-size array to reduction operation maximum`. -/
def amax (l : List ℚ) : Option ℚ :=
  match l with
  | [] => none
  | x :: xs => some (xs.foldl max x)

/-- `normalize_peak`'s `peak = np.abs(audio).max()` (line 43): the maximum
absolute sample value over all frames and channels; `none` models the
`ValueError` numpy raises when the buffer holds no samples at all. -/
def peak (audio : Buffer) : Option ℚ :=
  amax ((audio.flatten).map (fun x => |x|))

/-- `normalize_peak` from src/ab_play.py lines 41-46: scale every sample by
`target / peak` when the peak is positive, otherwise return the buffer
unchanged.  `none` propagates the uncaught `ValueError` of `peak` on a
zero-sample buffer. -/
def normalize_peak (audio : Buffer) (target : ℚ := 19/20) : Option Buffer :=
  match peak audio with
  | none => none
  | some p =>
    if 0 < p then
      some (audio.map (fun fr => fr.map (fun x => x * (target / p))))
    else
      some audio

/-- One decoded WAV input as seen by `load_wavs` after the mono reshape of
lines 67-70: `frames` are the rows of the 2-D array, `channels` is
`shape[1]`, `sr` the sample rate returned by the codec. -/
structure Wav where
  frames : Buffer
  channels : Nat
  sr : Int
  deriving Repr

/-- The fatal outcomes of `load_wavs`: the four `sys.exit(1)` validation
paths (lines 51-75), in source order, plus `valueError`, the uncaught
`ValueError` that `np.abs(audio).max()` raises inside `normalize_peak` when
a truncated buffer holds no samples (the interpreter then terminates with a
traceback, also exiting 1, but this is not one of the printed validation
paths). -/
inductive LoadError where
  | fileNotFoundA
  | fileNotFoundB
  | rateMismatch
  | channelMismatch
  | valueError
  deriving Repr, DecidableEq

/-- `load_wavs` from src/ab_play.py lines 49-87: existence checks, sample-rate
check, channel-count check, truncation to the shorter length, optional peak
normalization of each buffer (A first, then B, each able to raise on a
zero-sample buffer).  `none` models a missing file. -/
def load_wavs (fa fb : Option Wav) (do_normalize : Bool) :
    Except LoadError (Buffer × Buffer × Int) :=
  match fa with
  | none => .error .fileNotFoundA
  | some a =>
    match fb with
    | none => .error .fileNotFoundB
    | some b =>
      if a.sr ≠ b.sr then .error .rateMismatch
      else if a.channels ≠ b.channels then .error .channelMismatch
      else
        let min_len := min a.frames.length b.frames.length
        let audio_a := a.frames.take min_len
        let audio_b := b.frames.take min_len
        if do_normalize then
          match normalize_peak audio_a with
          | none => .error .valueError
          | some na =>
            match normalize_peak audio_b with
            | none => .error .valueError
            | some nb => .ok (na, nb, a.sr)
        else
          .ok (audio_a, audio_b, a.sr)

/-- The audio callback from src/ab_play.py lines 92-113.  `none` models
`raise sd.CallbackAbort()`.  Otherwise the result is the full contents of
`outdata` (every reachable path under `0 ≤ pos ≤ len(buf)` overwrites the
whole block) together with the post-call state.  `buf[start:end]` is
`(buf.drop start).take length`; `state.pos = end` happens only when
`length > 0`, and the zero-fill branch `length < frames` additionally sets
`paused` and rewinds `pos` to `0`. -/
def callback (bufs : Buffer × Buffer) (channels frames : Nat)
    (s : PlaybackState) : Option (List Frame × PlaybackState) :=
  if s.quit then
    none
  else if s.paused then
    some (List.replicate frames (zeroFrame channels), s)
  else
    let buf := getBuf bufs s.active
    let start := s.pos
    let stop := min (start + (frames : Int)) (buf.length : Int)
    let length := stop - start
    let copied := (buf.drop start.toNat).take length.toNat
    if length < (frames : Int) then
      some (copied ++ List.replicate (frames - length.toNat) (zeroFrame channels),
            { s with paused := true, pos := 0 })
    else
      some (copied, { s with pos := if 0 < length then stop else s.pos })

/-- The keystrokes handled by `run_ui` (src/ab_play.py lines 172-192). -/
inductive Key where
  | keyQ      -- q / Q
  | keySpace  -- SPACE
  | keyTab    -- TAB
  | keyLeft   -- KEY_LEFT
  | keyRight  -- KEY_RIGHT
  | keyH      -- h / H
  | keyL      -- l / L
  deriving Repr, DecidableEq

/-- The key-handling critical section of `run_ui` (src/ab_play.py lines
172-192).  `total_frames = len(buffers[0])` (line 124), `sr` is the shared
sample rate. -/
def applyKey (total_frames sr : Int) (k : Key) (s : PlaybackState) :
    PlaybackState :=
  match k with
  | .keyQ => { s with quit := true }
  | .keySpace => { s with paused := !s.paused }
  | .keyTab => { s with active := 1 - s.active }
  | .keyLeft => { s with pos := max 0 (s.pos - sr) }
  | .keyRight => { s with pos := min (total_frames - 1) (s.pos + sr) }
  | .keyH => { s with pos := max 0 (s.pos - 5 * sr) }
  | .keyL => { s with pos := min (total_frames - 1) (s.pos + 5 * sr) }

/-- The transport invariant of the spec: `0 ≤ position ≤ frameCount`. -/
def Inv (frameCount : Int) (s : PlaybackState) : Prop :=
  0 ≤ s.pos ∧ s.pos ≤ frameCount

instance (frameCount : Int) (s : PlaybackState) :
    Decidable (Inv frameCount s) := by
  unfold Inv; infer_instance

/-- C1: the A/B switch toggle (`state.active = 1 - state.active`, line 180)
flips `active` and leaves `pos` exactly unchanged, and hence any sequence of
toggles leaves `pos` unchanged. -/
theorem tab_flips_active_and_preserves_pos (total_frames sr : Int)
    (s : PlaybackState) :
    (applyKey total_frames sr Key.keyTab s).active = 1 - s.active ∧
    (applyKey total_frames sr Key.keyTab s).pos = s.pos ∧
    ∀ n : Nat, ((applyKey total_frames sr Key.keyTab)^[n] s).pos = s.pos := by
  refine ⟨rfl, rfl, fun n => ?_⟩
  induction n with
  | zero => rfl
  | succ n ih => rw [Function.iterate_succ_apply']; exact ih ▸ rfl

/-- C7: when `quit` is false and `paused` is true, the callback fills the
whole block with silence and leaves the state exactly unchanged
(lines 97-99). -/
theorem paused_callback_emits_silence (bufs : Buffer × Buffer)
    (ch frames : Nat) (s : PlaybackState)
    (hq : s.quit = false) (hp : s.paused = true) :
    callback bufs ch frames s
      = some (List.replicate frames (zeroFrame ch), s) := by
  simp [callback, hq, hp]

/-- Witness for C7 at a concrete state. -/
theorem paused_callback_emits_silence_witness :
    callback ([[1], [2]], [[3], [4]]) 1 2 initState
      = some (List.replicate 2 (zeroFrame 1), initState) :=
  paused_callback_emits_silence ([[1], [2]], [[3], [4]]) 1 2 initState rfl rfl

/-- C3: every seek key (←/→ by one second, H/L by five seconds) applied at a
position in `[0, total_frames - 1]` of a non-empty buffer pair yields a
position in `[0, total_frames - 1]` (lines 182-192 clamp with max/min). -/
theorem seek_clamps_into_range (total_frames sr : Int) (s : PlaybackState)
    (hsr : 0 ≤ sr) (hfc : 1 ≤ total_frames)
    (h0 : 0 ≤ s.pos) (h1 : s.pos ≤ total_frames - 1) :
    (0 ≤ (applyKey total_frames sr Key.keyLeft s).pos ∧
       (applyKey total_frames sr Key.keyLeft s).pos ≤ total_frames - 1) ∧
    (0 ≤ (applyKey total_frames sr Key.keyRight s).pos ∧
       (applyKey total_frames sr Key.keyRight s).pos ≤ total_frames - 1) ∧
    (0 ≤ (applyKey total_frames sr Key.keyH s).pos ∧
       (applyKey total_frames sr Key.keyH s).pos ≤ total_frames - 1) ∧
    (0 ≤ (applyKey total_frames sr Key.keyL s).pos ∧
       (applyKey total_frames sr Key.keyL s).pos ≤ total_frames - 1) := by
  simp only [applyKey]
  omega

/-- Witness for C3: seeking forward one second at position 2 of a 3-frame
buffer with sample rate 1. -/
theorem seek_clamps_into_range_witness :
    0 ≤ (applyKey 3 1 Key.keyRight
          { active := 0, paused := false, pos := 2, quit := false }).pos ∧
    (applyKey 3 1 Key.keyRight
          { active := 0, paused := false, pos := 2, quit := false }).pos
        ≤ 3 - 1 :=
  (seek_clamps_into_range 3 1
      { active := 0, paused := false, pos := 2, quit := false }
      (by decide) (by decide) (by decide) (by decide)).2.1

/-- C4 counterexample: with an empty buffer pair (`frameCount = 0`) the
invariant `0 ≤ position ≤ frameCount` holds initially but is broken by one
seek-forward key: `state.pos = min(total_frames - 1, state.pos + sr)` yields
`min (-1) 1 = -1`. -/
theorem invariant_broken_at_zero_frames :
    Inv 0 initState ∧
    (applyKey 0 1 Key.keyRight initState).pos = -1 ∧
    ¬ Inv 0 (applyKey 0 1 Key.keyRight initState) := by
  refine ⟨by decide, by decide, by decide⟩

/-- C4 amended: for every buffer pair with at least one frame
(`1 ≤ total_frames`, both buffers of that length) and nonnegative sample
rate, `0 ≤ position ≤ frameCount` holds initially and is preserved by every
key operation (pause toggle, A/B toggle, all four seeks, quit) and by every
render-callback invocation. -/
theorem invariant_preserved (bufs : Buffer × Buffer) (ch frames : Nat)
    (total_frames sr : Int)
    (hA : (bufs.1.length : Int) = total_frames)
    (hB : (bufs.2.length : Int) = total_frames)
    (hfc : 1 ≤ total_frames) (hsr : 0 ≤ sr)
    (s : PlaybackState) (hs : Inv total_frames s) :
    Inv total_frames initState ∧
    (∀ k : Key, Inv total_frames (applyKey total_frames sr k s)) ∧
    (∀ out s2, callback bufs ch frames s = some (out, s2) →
       Inv total_frames s2) := by
  obtain ⟨hs0, hs1⟩ := hs
  refine ⟨⟨le_refl 0, by show (0 : Int) ≤ total_frames; omega⟩, ?_, ?_⟩
  · intro k
    cases k <;> simp only [applyKey, Inv] <;> constructor <;> first
      | exact hs0 | exact hs1 | omega
  · intro out s2 h
    have hlen : ((getBuf bufs s.active).length : Int) = total_frames := by
      unfold getBuf
      split <;> assumption
    unfold callback at h
    split_ifs at h with h1 h2
    · simp only [Option.some.injEq, Prod.mk.injEq] at h
      obtain ⟨-, h⟩ := h
      subst h
      exact ⟨hs0, hs1⟩
    · dsimp only at h
      split at h <;>
        simp only [Option.some.injEq, Prod.mk.injEq] at h <;>
        obtain ⟨-, h⟩ := h <;> subst h
      · refine ⟨le_refl 0, ?_⟩
        show (0 : Int) ≤ total_frames
        omega
      · unfold Inv
        dsimp only
        split <;> omega

/-- Witness for C4 amended: a one-frame buffer pair, initial state, one
render of one frame. -/
theorem invariant_preserved_witness :
    Inv 1 initState ∧
    (∀ k : Key, Inv 1 (applyKey 1 1 k initState)) ∧
    (∀ out s2, callback ([[5]], [[6]]) 1 1 initState = some (out, s2) →
       Inv 1 s2) :=
  invariant_preserved ([[5]], [[6]]) 1 1 1 1 (by decide) (by decide)
    (by decide) (by decide) initState (by decide)

/-- C2: when `quit` is false, `paused` is false, `0 ≤ position ≤ frameCount`
and `position + framesRequested > frameCount`, the callback emits the
`frameCount - position` still-available frames of the active buffer followed
by exactly-zero frames for the rest of the block, and the post-call state has
`paused = true` and `position = 0` (lines 101-113).  The second conjunct
records that the emitted prefix indeed has `frameCount - position` frames. -/
theorem end_of_buffer_render (bufs : Buffer × Buffer) (ch frames : Nat)
    (s : PlaybackState) (hq : s.quit = false) (hp : s.paused = false)
    (h0 : 0 ≤ s.pos) (h1 : s.pos ≤ ((getBuf bufs s.active).length : Int))
    (hover : ((getBuf bufs s.active).length : Int) < s.pos + frames) :
    callback bufs ch frames s
      = some ((getBuf bufs s.active).drop s.pos.toNat
                ++ List.replicate
                     (frames - ((getBuf bufs s.active).length - s.pos.toNat))
                     (zeroFrame ch),
              { s with paused := true, pos := 0 }) ∧
    ((getBuf bufs s.active).drop s.pos.toNat).length
        = (getBuf bufs s.active).length - s.pos.toNat := by
  constructor
  · unfold callback
    rw [if_neg (by simp [hq]), if_neg (by simp [hp])]
    dsimp only
    rw [min_eq_right (le_of_lt hover), if_pos (by omega),
        List.take_of_length_le (by rw [List.length_drop]; omega)]
    have hcount : frames - (((getBuf bufs s.active).length : Int) - s.pos).toNat
        = frames - ((getBuf bufs s.active).length - s.pos.toNat) := by omega
    rw [hcount]
  · rw [List.length_drop]

/-- Witness for C2: a three-frame buffer, position 2, block of 2 frames. -/
theorem end_of_buffer_render_witness :
    callback ([[1], [2], [3]], [[4], [5], [6]]) 1 2
        { active := 0, paused := false, pos := 2, quit := false }
      = some ([[3], [0]],
              { active := 0, paused := true, pos := 0, quit := false }) := by
  have h := end_of_buffer_render ([[1], [2], [3]], [[4], [5], [6]]) 1 2
      { active := 0, paused := false, pos := 2, quit := false }
      rfl rfl (by decide) (by decide) (by decide)
  exact h.1.trans (by decide)

/-- C9: when `quit` is false, `paused` is false and exactly `framesRequested`
frames remain (`frameCount - position = framesRequested > 0`), the callback
copies all remaining frames and sets `position = frameCount` without touching
`paused` and without rewinding; the auto-pause-and-rewind happens only on the
next callback, which emits a whole block of silence, sets `paused = true` and
`position = 0`. -/
theorem exact_block_at_end (bufs : Buffer × Buffer) (ch frames : Nat)
    (s : PlaybackState) (hq : s.quit = false) (hp : s.paused = false)
    (h0 : 0 ≤ s.pos) (hfr : 0 < frames)
    (hexact : s.pos + frames = ((getBuf bufs s.active).length : Int)) :
    callback bufs ch frames s
      = some ((getBuf bufs s.active).drop s.pos.toNat,
              { s with pos := ((getBuf bufs s.active).length : Int) }) ∧
    ∀ frames2 : Nat, 0 < frames2 →
      callback bufs ch frames2
          { s with pos := ((getBuf bufs s.active).length : Int) }
        = some (List.replicate frames2 (zeroFrame ch),
                { s with paused := true, pos := 0 }) := by
  constructor
  · unfold callback
    rw [if_neg (by simp [hq]), if_neg (by simp [hp])]
    dsimp only
    rw [min_eq_right (le_of_eq hexact.symm), if_neg (by omega),
        if_pos (by omega),
        List.take_of_length_le (by rw [List.length_drop]; omega)]
  · intro frames2 hfr2
    unfold callback
    rw [if_neg (by simp [hq]), if_neg (by simp [hp])]
    dsimp only
    rw [min_eq_right (by omega), if_pos (by omega)]
    have hdrop : ((getBuf bufs s.active).drop
        (((getBuf bufs s.active).length : Int)).toNat) = [] := by
      apply List.drop_eq_nil_of_le
      omega
    rw [hdrop]
    have hzero : ((((getBuf bufs s.active).length : Int))
        - (((getBuf bufs s.active).length : Int))).toNat = 0 := by omega
    rw [hzero]
    simp

/-- Witness for C9: a three-frame buffer, position 1, block of 2 frames,
then a second callback of 2 frames. -/
theorem exact_block_at_end_witness :
    callback ([[1], [2], [3]], [[4], [5], [6]]) 1 2
        { active := 0, paused := false, pos := 1, quit := false }
      = some ([[2], [3]],
              { active := 0, paused := false, pos := 3, quit := false }) ∧
    callback ([[1], [2], [3]], [[4], [5], [6]]) 1 2
        { active := 0, paused := false, pos := 3, quit := false }
      = some ([[0], [0]],
              { active := 0, paused := true, pos := 0, quit := false }) := by
  have h := exact_block_at_end ([[1], [2], [3]], [[4], [5], [6]]) 1 2
      { active := 0, paused := false, pos := 1, quit := false }
      rfl rfl (by decide) (by decide) (by decide)
  exact ⟨h.1.trans (by decide), (h.2 2 (by decide)).trans (by decide)⟩

/-- C5: with equal sample rates, equal channel counts and `normalize = false`,
`load_wavs` succeeds and returns the two buffers truncated to
`min (len A) (len B)` frames, each equal to the corresponding prefix of its
input (lines 77-80: truncation only, no padding, no interpolation). -/
theorem load_truncates_to_min (a b : Wav)
    (hsr : a.sr = b.sr) (hch : a.channels = b.channels) :
    load_wavs (some a) (some b) false
      = .ok (a.frames.take (min a.frames.length b.frames.length),
             b.frames.take (min a.frames.length b.frames.length),
             a.sr) ∧
    (a.frames.take (min a.frames.length b.frames.length)).length
      = min a.frames.length b.frames.length ∧
    (b.frames.take (min a.frames.length b.frames.length)).length
      = min a.frames.length b.frames.length := by
  refine ⟨?_, ?_, ?_⟩
  · simp only [load_wavs]
    rw [if_neg (by simp [hsr]), if_neg (by simp [hch])]
    rfl
  · rw [List.length_take]
    omega
  · rw [List.length_take]
    omega

/-- Witness for C5: a 2-frame input A and 3-frame input B truncate to two
frames each. -/
theorem load_truncates_to_min_witness :
    load_wavs (some ⟨[[1], [2]], 1, 48000⟩) (some ⟨[[4], [5], [6]], 1, 48000⟩)
        false
      = .ok ([[1], [2]], [[4], [5]], 48000) := by
  have h := load_truncates_to_min ⟨[[1], [2]], 1, 48000⟩
      ⟨[[4], [5], [6]], 1, 48000⟩ rfl rfl
  exact h.1.trans rfl

/-- Folding `max` commutes with scaling by a nonnegative factor. -/
theorem foldl_max_map_mul (l : List ℚ) (x c : ℚ) (hc : 0 ≤ c) :
    (l.map (fun y => y * c)).foldl max (x * c) = l.foldl max x * c := by
  induction l generalizing x with
  | nil => rfl
  | cons y ys ih =>
    simp only [List.map_cons, List.foldl_cons]
    rw [← max_mul_of_nonneg _ _ hc, ih]

/-- `amax` commutes with scaling by a nonnegative factor. -/
theorem amax_map_mul (l : List ℚ) (c : ℚ) (hc : 0 ≤ c) :
    amax (l.map (fun y => y * c)) = (amax l).map (fun p => p * c) := by
  cases l with
  | nil => rfl
  | cons x xs =>
    show some ((xs.map (fun y => y * c)).foldl max (x * c))
        = some (xs.foldl max x * c)
    rw [foldl_max_map_mul xs x c hc]

/-- The peak of a uniformly scaled buffer is the scaled peak (for a
nonnegative factor); a zero-sample buffer stays a `ValueError`. -/
theorem peak_map_scale (audio : Buffer) (c : ℚ) (hc : 0 ≤ c) :
    peak (audio.map (fun fr => fr.map (fun x => x * c)))
      = (peak audio).map (fun p => p * c) := by
  unfold peak
  rw [← List.map_flatten]
  rw [List.map_map]
  have habs : ((fun x => |x|) ∘ fun x => x * c)
      = (fun x => x * c) ∘ fun x : ℚ => |x| := by
    funext x
    simp [abs_mul, abs_of_nonneg hc]
  rw [habs, ← List.map_map, amax_map_mul _ _ hc]

/-- `amax` raises exactly on the empty list. -/
theorem amax_eq_none_iff (l : List ℚ) : amax l = none ↔ l = [] := by
  cases l <;> simp [amax]

/-- `peak` raises exactly on a buffer with no samples at all. -/
theorem peak_eq_none_iff (audio : Buffer) :
    peak audio = none ↔ audio.flatten = [] := by
  unfold peak
  rw [amax_eq_none_iff, List.map_eq_nil_iff]

/-- `normalize_peak` raises exactly on a buffer with no samples at all. -/
theorem normalize_peak_eq_none_iff (audio : Buffer) :
    normalize_peak audio = none ↔ audio.flatten = [] := by
  unfold normalize_peak
  cases h : peak audio with
  | none => simp [(peak_eq_none_iff audio).mp h]
  | some p =>
    have hflat : ¬ audio.flatten = [] := fun hemp => by
      rw [(peak_eq_none_iff audio).mpr hemp] at h
      exact Option.noConfusion h
    simp only [hflat, iff_false]
    split <;> simp

/-- `normalize_peak` returns normally on every buffer with at least one
sample. -/
theorem normalize_peak_total (audio : Buffer) (h : audio.flatten ≠ []) :
    ∃ r, normalize_peak audio = some r := by
  cases hr : normalize_peak audio with
  | none => exact absurd ((normalize_peak_eq_none_iff audio).mp hr) h
  | some r => exact ⟨r, rfl⟩

/-- The success path of `load_wavs` with `normalize = true`: when both
truncated buffers normalize without raising, the result is exactly the pair
of their independent normalizations. -/
theorem load_wavs_normalize_eq (a b : Wav) (hsr : a.sr = b.sr)
    (hch : a.channels = b.channels) (nA nB : Buffer)
    (hA : normalize_peak
        (a.frames.take (min a.frames.length b.frames.length)) = some nA)
    (hB : normalize_peak
        (b.frames.take (min a.frames.length b.frames.length)) = some nB) :
    load_wavs (some a) (some b) true = .ok (nA, nB, a.sr) := by
  simp only [load_wavs]
  rw [if_neg (by simp [hsr]), if_neg (by simp [hch]), if_pos trivial, hA, hB]

/-- The crash path of `load_wavs` with `normalize = true`: a zero-sample
truncated buffer makes `normalize_peak` raise. -/
theorem load_wavs_normalize_crash (a b : Wav) (hsr : a.sr = b.sr)
    (hch : a.channels = b.channels)
    (h : (a.frames.take (min a.frames.length b.frames.length)).flatten = []
       ∨ (b.frames.take (min a.frames.length b.frames.length)).flatten
           = []) :
    load_wavs (some a) (some b) true = .error .valueError := by
  simp only [load_wavs]
  rw [if_neg (by simp [hsr]), if_neg (by simp [hch]), if_pos trivial]
  by_cases hA :
      (a.frames.take (min a.frames.length b.frames.length)).flatten = []
  · rw [(normalize_peak_eq_none_iff _).mpr hA]
  · obtain ⟨nA, hnA⟩ := normalize_peak_total _ hA
    rw [hnA, (normalize_peak_eq_none_iff _).mpr (h.resolve_left hA)]

/-- C6: peak normalization (lines 41-46) with the default target `0.95`:
on a non-empty buffer the peak is defined (no `ValueError`); if the peak `p`
is positive every sample of every channel is multiplied by the uniform
factor `0.95 / p` and the resulting peak is exactly `0.95`; if `p = 0` the
buffer is returned unchanged; and under `load_wavs` with `normalize = true`
(lines 83-85) each truncated buffer is normalized independently of the
other: whenever each normalizes on its own to some result, the returned
pair is exactly those two results. -/
theorem normalize_peak_correct (audio : Buffer) (a b : Wav)
    (hne : audio.flatten ≠ [])
    (hsr : a.sr = b.sr) (hch : a.channels = b.channels) :
    (∃ p, peak audio = some p) ∧
    (∀ p, peak audio = some p → 0 < p →
       normalize_peak audio
         = some (audio.map (fun fr => fr.map (fun x => x * (19/20 / p)))) ∧
       peak (audio.map (fun fr => fr.map (fun x => x * (19/20 / p))))
         = some (19/20)) ∧
    (peak audio = some 0 → normalize_peak audio = some audio) ∧
    (∀ nA nB,
       normalize_peak
           (a.frames.take (min a.frames.length b.frames.length)) = some nA →
       normalize_peak
           (b.frames.take (min a.frames.length b.frames.length)) = some nB →
       load_wavs (some a) (some b) true = .ok (nA, nB, a.sr)) := by
  refine ⟨?_, fun p hpk hpos => ⟨?_, ?_⟩, fun hz => ?_, ?_⟩
  · cases hpk : peak audio with
    | none => exact absurd ((peak_eq_none_iff audio).mp hpk) hne
    | some p => exact ⟨p, rfl⟩
  · unfold normalize_peak
    rw [hpk]
    show (if 0 < p
        then some (audio.map (fun fr => fr.map (fun x => x * (19/20 / p))))
        else some audio)
      = some (audio.map (fun fr => fr.map (fun x => x * (19/20 / p))))
    rw [if_pos hpos]
  · rw [peak_map_scale _ _ (by positivity), hpk]
    show some (p * (19/20 / p)) = some (19/20)
    rw [mul_comm, div_mul_cancel₀ _ (ne_of_gt hpos)]
  · unfold normalize_peak
    rw [hz]
    show (if (0 : ℚ) < 0
        then some (audio.map (fun fr => fr.map (fun x => x * (19/20 / 0))))
        else some audio)
      = some audio
    rw [if_neg (lt_irrefl 0)]
  · exact fun nA nB hA hB => load_wavs_normalize_eq a b hsr hch nA nB hA hB

/-- Witness for C6: a one-sample buffer with peak `1/2` scales to exactly
`19/20`; the example non-empty WAV pair is accepted with both buffers
normalized independently. -/
theorem normalize_peak_correct_witness :
    (normalize_peak [[(1 : ℚ)/2]]
       = some ([[(1 : ℚ)/2]].map
           (fun fr => fr.map (fun x => x * (19/20 / (1/2))))) ∧
     peak ([[(1 : ℚ)/2]].map
           (fun fr => fr.map (fun x => x * (19/20 / (1/2)))))
       = some (19/20)) ∧
    load_wavs (some ⟨[[(1 : ℚ)/2]], 1, 48000⟩)
        (some ⟨[[(1 : ℚ)/4]], 1, 48000⟩) true
      = .ok ([[(19 : ℚ)/20]], [[(19 : ℚ)/20]], 48000) := by
  have h := normalize_peak_correct [[(1 : ℚ)/2]]
      ⟨[[(1 : ℚ)/2]], 1, 48000⟩ ⟨[[(1 : ℚ)/4]], 1, 48000⟩
      (by simp) rfl rfl
  have h2 := normalize_peak_correct [[(1 : ℚ)/4]]
      ⟨[[(1 : ℚ)/2]], 1, 48000⟩ ⟨[[(1 : ℚ)/4]], 1, 48000⟩
      (by simp) rfl rfl
  have hpkA : peak [[(1 : ℚ)/2]] = some (1/2) := by norm_num [peak, amax]
  have hpkB : peak [[(1 : ℚ)/4]] = some (1/4) := by norm_num [peak, amax]
  have hscA := h.2.1 (1/2) hpkA (by norm_num)
  have hscB := h2.2.1 (1/4) hpkB (by norm_num)
  refine ⟨hscA, ?_⟩
  have hA : normalize_peak [[(1 : ℚ)/2]] = some [[(19 : ℚ)/20]] :=
    hscA.1.trans (by norm_num)
  have hB : normalize_peak [[(1 : ℚ)/4]] = some [[(19 : ℚ)/20]] :=
    hscB.1.trans (by norm_num)
  exact h.2.2.2 [[(19 : ℚ)/20]] [[(19 : ℚ)/20]] hA hB

/-- C8 counterexample: two present inputs with equal sample rates and equal
channel counts on which `load_wavs` does not return a buffer pair: input A
has zero frames, so with `normalize` requested `np.abs(audio).max()` raises
an uncaught `ValueError` inside `normalize_peak` and the process dies before
any stream is opened. -/
theorem load_crash_counterexample :
    (⟨[], 1, 48000⟩ : Wav).sr = (⟨[[1]], 1, 48000⟩ : Wav).sr ∧
    (⟨[], 1, 48000⟩ : Wav).channels = (⟨[[1]], 1, 48000⟩ : Wav).channels ∧
    load_wavs (some ⟨[], 1, 48000⟩) (some ⟨[[1]], 1, 48000⟩) true
      = .error .valueError :=
  ⟨rfl, rfl, rfl⟩

/-- C8 amended: `load_wavs` terminates the process fatally — before any
audio stream is opened in `main` — exactly when an input is missing, the
sample rates differ, the channel counts differ, or normalization is
requested and a truncated buffer holds no samples (the uncaught
`ValueError` path); with both inputs present and matching and, when
normalizing, a non-empty comparison window, it returns a buffer pair. -/
theorem load_fails_iff_invalid (fa fb : Option Wav) (nz : Bool) :
    ((∃ e, load_wavs fa fb nz = .error e) ↔
      fa = none ∨ fb = none ∨
        ∃ a b, fa = some a ∧ fb = some b ∧
          (a.sr ≠ b.sr ∨ a.channels ≠ b.channels ∨
            (nz = true ∧
              ((a.frames.take (min a.frames.length b.frames.length)).flatten
                  = [] ∨
               (b.frames.take (min a.frames.length b.frames.length)).flatten
                  = [])))) ∧
    (∀ a b, fa = some a → fb = some b → a.sr = b.sr →
       a.channels = b.channels →
       (nz = true →
         (a.frames.take (min a.frames.length b.frames.length)).flatten
             ≠ [] ∧
         (b.frames.take (min a.frames.length b.frames.length)).flatten
             ≠ []) →
       ∃ outA outB sr, load_wavs fa fb nz = .ok (outA, outB, sr)) := by
  constructor
  · constructor
    · intro ⟨e, he⟩
      match fa with
      | none => exact Or.inl rfl
      | some a =>
        match fb with
        | none => exact Or.inr (Or.inl rfl)
        | some b =>
          refine Or.inr (Or.inr ⟨a, b, rfl, rfl, ?_⟩)
          by_contra hcon
          push_neg at hcon
          obtain ⟨hsr, hch, hrest⟩ := hcon
          cases nz with
          | false =>
            simp only [load_wavs] at he
            rw [if_neg (by simp [hsr]), if_neg (by simp [hch])] at he
            simp at he
          | true =>
            obtain ⟨hneA, hneB⟩ := hrest rfl
            obtain ⟨nA, hA⟩ := normalize_peak_total _ hneA
            obtain ⟨nB, hB⟩ := normalize_peak_total _ hneB
            rw [load_wavs_normalize_eq a b hsr hch nA nB hA hB] at he
            exact Except.noConfusion he
    · intro hinv
      rcases hinv with h | h | ⟨a, b, ha, hb, hmm⟩
      · exact ⟨.fileNotFoundA, by rw [h]; rfl⟩
      · match fa with
        | none => exact ⟨.fileNotFoundA, rfl⟩
        | some a => exact ⟨.fileNotFoundB, by rw [h]; rfl⟩
      · subst ha
        subst hb
        rcases hmm with hsr | hch | ⟨hnz, hemp⟩
        · exact ⟨.rateMismatch, by simp only [load_wavs]; rw [if_pos hsr]⟩
        · rcases eq_or_ne a.sr b.sr with he | hne
          · exact ⟨.channelMismatch, by
              simp only [load_wavs]
              rw [if_neg (by simp [he]), if_pos hch]⟩
          · exact ⟨.rateMismatch, by simp only [load_wavs]; rw [if_pos hne]⟩
        · subst hnz
          rcases eq_or_ne a.sr b.sr with hsr | hne
          · rcases eq_or_ne a.channels b.channels with hch | hchne
            · exact ⟨.valueError, load_wavs_normalize_crash a b hsr hch hemp⟩
            · exact ⟨.channelMismatch, by
                simp only [load_wavs]
                rw [if_neg (by simp [hsr]), if_pos hchne]⟩
          · exact ⟨.rateMismatch, by simp only [load_wavs]; rw [if_pos hne]⟩
  · intro a b ha hb hsr hch hnz
    subst ha
    subst hb
    cases nz with
    | false =>
      refine ⟨a.frames.take (min a.frames.length b.frames.length),
              b.frames.take (min a.frames.length b.frames.length), a.sr, ?_⟩
      simp only [load_wavs]
      rw [if_neg (by simp [hsr]), if_neg (by simp [hch])]
      rfl
    | true =>
      obtain ⟨hneA, hneB⟩ := hnz rfl
      obtain ⟨nA, hA⟩ := normalize_peak_total _ hneA
      obtain ⟨nB, hB⟩ := normalize_peak_total _ hneB
      exact ⟨nA, nB, a.sr, load_wavs_normalize_eq a b hsr hch nA nB hA hB⟩

/-- Witness for C8 amended: a rate mismatch is rejected, a zero-frame input
with normalization requested is rejected, and a matching non-empty pair
with normalization is accepted. -/
theorem load_fails_iff_invalid_witness :
    (∃ e, load_wavs (some ⟨[[1]], 1, 44100⟩) (some ⟨[[2]], 1, 48000⟩) false
        = .error e) ∧
    (∃ e, load_wavs (some ⟨[], 1, 48000⟩) (some ⟨[[1]], 1, 48000⟩) true
        = .error e) ∧
    (∃ outA outB sr,
      load_wavs (some ⟨[[1]], 1, 48000⟩) (some ⟨[[2]], 1, 48000⟩) true
        = .ok (outA, outB, sr)) :=
  ⟨(load_fails_iff_invalid (some ⟨[[1]], 1, 44100⟩) (some ⟨[[2]], 1, 48000⟩)
        false).1.mpr
      (Or.inr (Or.inr ⟨_, _, rfl, rfl, Or.inl (by decide)⟩)),
   (load_fails_iff_invalid (some ⟨[], 1, 48000⟩) (some ⟨[[1]], 1, 48000⟩)
        true).1.mpr
      (Or.inr (Or.inr ⟨_, _, rfl, rfl, Or.inr (Or.inr ⟨rfl, Or.inl rfl⟩)⟩)),
   (load_fails_iff_invalid (some ⟨[[1]], 1, 48000⟩) (some ⟨[[2]], 1, 48000⟩)
        true).2 _ _ rfl rfl rfl rfl
      (fun _ => ⟨by decide, by decide⟩)⟩

/-- One atomic critical section of the program: either the key-handling
section of `run_ui` (lines 172-192) or one render-callback invocation
(lines 92-114).  Both bodies run entirely under `state.lock`, so a concurrent
execution is an arbitrary interleaving of these atomic steps. -/
inductive Op where
  | ctrl (k : Key)
  | render (frames : Nat)
  deriving Repr, DecidableEq

/-- Run an interleaving of atomic control and render steps from a start
state, collecting for every non-aborted render invocation the triple
(pre-state snapshot, requested frames, emitted block).  A render on a `quit`
state raises `CallbackAbort` and emits nothing — in the program the stream
then stops and `quit` is never unset, so every later render also emits
nothing. -/
def runTrace (bufs : Buffer × Buffer) (ch : Nat) (total_frames sr : Int) :
    List Op → PlaybackState →
      List (PlaybackState × Nat × List Frame) × PlaybackState
  | [], s => ([], s)
  | .ctrl k :: ops, s =>
      runTrace bufs ch total_frames sr ops (applyKey total_frames sr k s)
  | .render n :: ops, s =>
      match callback bufs ch n s with
      | none => runTrace bufs ch total_frames sr ops s
      | some (out, s2) =>
          let rest := runTrace bufs ch total_frames sr ops s2
          ((s, n, out) :: rest.1, rest.2)

/-- Every frame a callback invocation emits is a frame of the buffer selected
by `active` in its (single) pre-state snapshot, or an exact-zero frame. -/
theorem callback_frames_from_active_buffer (bufs : Buffer × Buffer)
    (ch n : Nat) (s : PlaybackState) (out : List Frame) (s2 : PlaybackState)
    (h : callback bufs ch n s = some (out, s2)) :
    ∀ fr ∈ out, fr ∈ getBuf bufs s.active ∨ fr = zeroFrame ch := by
  intro fr hfr
  unfold callback at h
  split_ifs at h with h1 h2
  · simp only [Option.some.injEq, Prod.mk.injEq] at h
    obtain ⟨h, -⟩ := h
    subst h
    exact Or.inr (List.eq_of_mem_replicate hfr)
  · dsimp only at h
    split at h <;>
      simp only [Option.some.injEq, Prod.mk.injEq] at h <;>
      obtain ⟨h, -⟩ := h <;> subst h
    · rcases List.mem_append.mp hfr with hmem | hmem
      · exact Or.inl (List.mem_of_mem_drop (List.mem_of_mem_take hmem))
      · exact Or.inr (List.eq_of_mem_replicate hmem)
    · exact Or.inl (List.mem_of_mem_drop (List.mem_of_mem_take hfr))

/-- C10: in every interleaving of atomic control mutations and render
invocations, each recorded render event is the callback output of the single
pre-state snapshot it observed (so the block reflects one consistent
`(active, paused, position)` snapshot), and every frame of the block comes
from the one buffer that snapshot's `active` selects, or is silence — no
block mixes A and B samples. -/
theorem render_uses_single_snapshot_and_buffer (bufs : Buffer × Buffer)
    (ch : Nat) (total_frames sr : Int) (ops : List Op) (s0 : PlaybackState)
    (ev : PlaybackState × Nat × List Frame)
    (hev : ev ∈ (runTrace bufs ch total_frames sr ops s0).1) :
    (∃ s2, callback bufs ch ev.2.1 ev.1 = some (ev.2.2, s2)) ∧
    ∀ fr ∈ ev.2.2, fr ∈ getBuf bufs ev.1.active ∨ fr = zeroFrame ch := by
  induction ops generalizing s0 with
  | nil => exact absurd hev (by simp [runTrace])
  | cons op ops ih =>
    cases op with
    | ctrl k =>
      rw [runTrace] at hev
      exact ih _ hev
    | render n =>
      rw [runTrace] at hev
      rcases hc : callback bufs ch n s0 with - | p
      · rw [hc] at hev
        exact ih _ hev
      · obtain ⟨out, s2⟩ := p
        rw [hc] at hev
        rcases List.mem_cons.mp hev with hhead | htail
        · subst hhead
          exact ⟨⟨s2, hc⟩,
            callback_frames_from_active_buffer bufs ch n s0 out s2 hc⟩
        · exact ih _ htail

/-- Witness for C10: a two-step trace (unpause, then render one frame) whose
single render event snapshots the unpaused state and draws its frame from
buffer A. -/
theorem render_uses_single_snapshot_and_buffer_witness :
    (∃ s2, callback ([[1], [2]], [[3], [4]]) 1 1
        { active := 0, paused := false, pos := 0, quit := false }
      = some ([[1]], s2)) ∧
    ∀ fr ∈ [[(1 : ℚ)]],
      fr ∈ getBuf ([[1], [2]], [[3], [4]])
          ({ active := 0, paused := false, pos := 0, quit := false} :
            PlaybackState).active ∨
        fr = zeroFrame 1 :=
  render_uses_single_snapshot_and_buffer ([[1], [2]], [[3], [4]]) 1 2 1
    [Op.ctrl Key.keySpace, Op.render 1] initState
    ({ active := 0, paused := false, pos := 0, quit := false }, 1, [[1]])
    (by decide)

end ABPlay
